import Mathlib

/-!
Shallow embedding of the planning_agent repository (state.py, tool.py,
tool_list.py, planner.py, planner_viz.py) and proofs about its claims.

Python floats are modelled as rationals, Python exceptions as explicit
error values (`Except`), and in-place mutation of `State` as pure state
passing.  The external GPT oracle (`call_gpt`) is modelled as an
`OracleRun` record of resolved replies: `none` stands for a failed or
unparseable call, `some` for a cleanly parsed reply.
-/

set_option maxRecDepth 8000

namespace PlanningAgent

/-- Mirrors `state.py`: a `State` dataclass with four fields defaulting to
`None`/`False`.  Field equality and hashing are derived, as in the source. -/
structure State where
  origin : Option String := none
  destination : Option String := none
  transport : Option String := none
  booking_confirmed : Bool := false
  deriving DecidableEq, Repr

/-- Mirrors `State.is_goal`: `return self.booking_confirmed`. -/
def State.is_goal (s : State) : Bool := s.booking_confirmed

/-- Python truthiness of an optional string field (`None` and `""` are falsy),
used by the fallback ranking heuristic in `planner_viz.py`. -/
def truthy : Option String → Bool
  | none => false
  | some s => !(s == "")

/-- Exceptions a tool invocation can raise: the `ValueError` raised by
`Tool.__call__` when the precondition fails, and the `IndexError` raised
inside an effect such as `args[0]` when the argument tuple is empty. -/
inductive PyError where
  | valueError (msg : String)
  | indexError
  deriving DecidableEq, Repr

/-- Mirrors `tool.py`: the `Tool` dataclass.  The effect is partial
(`none` models the effect body raising, e.g. `args[0]` on an empty tuple);
it returns the updated state instead of mutating in place. -/
structure Tool where
  name : String
  description : String
  cost : ℚ
  precondition : State → Bool
  effect : State → List String → Option State
  arg_names : List String

/-- Mirrors `Tool.__call__`: check the precondition, raise `ValueError` if it
fails, otherwise run the effect and return `True`.  The returned `State` is
the state after the call (unchanged on any error, since the effects in
`tool_list.py` raise, if at all, before assigning). -/
def Tool.callM (t : Tool) (s : State) (args : List String) : Except PyError Bool × State :=
  if t.precondition s then
    match t.effect s args with
    | some s' => (Except.ok true, s')
    | none => (Except.error PyError.indexError, s)
  else (Except.error (PyError.valueError ("Precondition failed for " ++ t.name)), s)

/-- Mirrors `tool_list.py` `set_origin`. -/
def set_origin : Tool where
  name := "set_origin"
  description := "Set the origin city for travel"
  cost := 1
  precondition := fun s => s.origin.isNone
  effect := fun s args =>
    match args with
    | a :: _ => some { s with origin := some a }
    | [] => none
  arg_names := ["city"]

/-- Mirrors `tool_list.py` `set_destination`. -/
def set_destination : Tool where
  name := "set_destination"
  description := "Set the destination city"
  cost := 1
  precondition := fun s => s.origin.isSome && s.destination.isNone
  effect := fun s args =>
    match args with
    | a :: _ => some { s with destination := some a }
    | [] => none
  arg_names := ["city"]

/-- Mirrors `tool_list.py` `select_transport` (cost 1.2). -/
def select_transport : Tool where
  name := "select_transport"
  description := "Choose a transport mode (e.g. train, flight)"
  cost := 6/5
  precondition := fun s => s.destination.isSome && s.transport.isNone
  effect := fun s args =>
    match args with
    | a :: _ => some { s with transport := some a }
    | [] => none
  arg_names := ["mode"]

/-- Mirrors `tool_list.py` `confirm_booking` (ignores its arguments). -/
def confirm_booking : Tool where
  name := "confirm_booking"
  description := "Finalize the booking and mark as confirmed"
  cost := 2
  precondition := fun s => s.transport.isSome && !s.booking_confirmed
  effect := fun s _ => some { s with booking_confirmed := true }
  arg_names := []

/-- Mirrors `tool_list.py` `TOOLS`, in registry order. -/
def TOOLS : List Tool := [set_origin, set_destination, select_transport, confirm_booking]

/-- Python `max(a, b)` on two numbers: the second argument wins only when
strictly larger. -/
def pymax (a b : ℚ) : ℚ := if a < b then b else a

/-- Python `min(a, b)` on two numbers: the second argument wins only when
strictly smaller. -/
def pymin2 (a b : ℚ) : ℚ := if b < a then b else a

/-- One step of Python `min(list)`: replace the current minimum only when the
next item is strictly smaller. -/
def pyminFold (cur x : ℚ) : ℚ := if x < cur then x else cur

/-- Mirrors `max(0.0, min(1.0, p))` used when parsing ranking replies. -/
def clamp01 (p : ℚ) : ℚ := pymax 0 (pymin2 1 p)

/-- Mirrors `planner.heuristic` / `Planner.heuristic`: `0` for a confirmed
state, otherwise `min` of the costs of the applicable tools, `0` when no tool
applies.  The module-level `TOOLS` global is a parameter here. -/
def heuristic (tools : List Tool) (state : State) : ℚ :=
  if state.booking_confirmed then 0
  else
    match (tools.filter (fun t => t.precondition state)).map (fun t => t.cost) with
    | [] => 0
    | c :: cs => cs.foldl pyminFold c

/-- ASCII `[A-Z]` as in the `CITY_RE` regex. -/
def isUpperCh (c : Char) : Bool := 'A' ≤ c && c ≤ 'Z'

/-- ASCII `[a-z]` as in the `CITY_RE` regex. -/
def isLowerCh (c : Char) : Bool := 'a' ≤ c && c ≤ 'z'

/-- The `\s` class of the `CITY_RE` regex (ASCII whitespace). -/
def isWsCh (c : Char) : Bool :=
  c == ' ' || c == '\t' || c == '\n' || c == '\r' || c == '\x0b' || c == '\x0c'

/-- Match `[A-Z][a-z]+` at the head of the character list, returning the
matched word and the remaining characters. -/
def matchWord : List Char → Option (List Char × List Char)
  | [] => none
  | c :: rest =>
    if isUpperCh c then
      let lower := rest.takeWhile isLowerCh
      if lower.isEmpty then none
      else some (c :: lower, rest.drop lower.length)
    else none

/-- Greedy `(\s[A-Z][a-z]+)*` continuation of a matched word.  The fuel
argument only bounds the recursion depth; each step consumes at least two
characters, so any fuel of at least the input length is exact. -/
def extendPhraseF : Nat → List Char → List Char → List Char × List Char
  | 0, acc, rest => (acc, rest)
  | fuel + 1, acc, rest =>
    match rest with
    | [] => (acc, [])
    | sp :: rest' =>
      if isWsCh sp then
        match matchWord rest' with
        | some (w, rest'') => extendPhraseF fuel (acc ++ sp :: w) rest''
        | none => (acc, sp :: rest')
      else (acc, sp :: rest')

/-- Leftmost non-overlapping matches of the `CITY_RE` regex
`([A-Z][a-z]+(?:\s[A-Z][a-z]+)*)`, as `re.findall` produces them.  Fueled as
above; each outer step consumes at least one character. -/
def findPhrasesF : Nat → List Char → List (List Char)
  | 0, _ => []
  | _ + 1, [] => []
  | fuel + 1, c :: rest =>
    match matchWord (c :: rest) with
    | some (w, rest') =>
      let pr := extendPhraseF fuel w rest'
      pr.1 :: findPhrasesF fuel pr.2
    | none => findPhrasesF fuel rest

/-- The stable deduplication `[c for c in cities if not (c in seen or seen.add(c))]`. -/
def dedupAux : List String → List String → List String
  | _, [] => []
  | seen, c :: cs =>
    if seen.contains c then dedupAux seen cs else c :: dedupAux (c :: seen) cs

/-- `CITY_RE.findall(user_question)` followed by the stable dedup, as in
`propose_args`. -/
def extract_cities (q : String) : List String :=
  dedupAux [] ((findPhrasesF (q.length + 1) q.data).map (fun l => String.mk l))

/-- Mirrors the `TRANSPORT_MODES` class attribute. -/
def TRANSPORT_MODES : List String := ["train", "flight", "bus"]

/-- The deterministic fallback of `propose_args` (both planner variants):
city-like phrases from the goal text, or per-tool defaults. -/
def fallback_args (tool : Tool) (q : String) : List (List String) :=
  let cities := extract_cities q
  if tool.name == "set_origin" then
    let cs := (cities.take 3).map (fun c => [c])
    if cs.isEmpty then [["New York"]] else cs
  else if tool.name == "set_destination" then
    let cs := ((cities.drop 1).take 3).map (fun c => [c])
    if cs.isEmpty then [["Boston"]] else cs
  else if tool.name == "select_transport" then
    TRANSPORT_MODES.map (fun m => [m])
  else [[]]

/-- The resolved outcomes of the external GPT calls during one search.
`rankReply`/`argsReply` return `none` when the call fails or its reply does
not parse, and the cleanly parsed payload otherwise; `predictVal` is the
value `predict_success` resolves to for a given query (the call's reply when
it parses as a float, a `random.uniform(0.4, 0.9)` draw otherwise). -/
structure OracleRun where
  rankReply : State → Option (List (String × ℚ))
  argsReply : Tool → State → Option (List (List String))
  predictVal : State → Tool → List String → ℚ

/-- Mirrors `propose_args` (identical logic in both planner variants): the
parsed GPT candidates if any, otherwise the deterministic fallback; at most
three candidates. -/
def propose_args (o : OracleRun) (tool : Tool) (state : State) (q : String) :
    List (List String) :=
  let candidates := (o.argsReply tool state).getD []
  let candidates := if candidates.isEmpty then fallback_args tool q else candidates
  candidates.take 3

/-- The fallback `heuristic_rank` closure of `Planner.propose_tools`
(`planner_viz.py` only): a score from the earliest missing field, minus
`0.01 * cost`. -/
def heuristic_rank (state : State) (t : Tool) : ℚ :=
  (if t.name == "confirm_booking" && truthy state.transport && truthy state.origin
      && truthy state.destination then (95 : ℚ)/100
   else if t.name == "select_transport" && truthy state.origin && truthy state.destination
      && !truthy state.transport then (85 : ℚ)/100
   else if t.name == "set_destination" && truthy state.origin
      && !truthy state.destination then (75 : ℚ)/100
   else if t.name == "set_origin" && !truthy state.origin then (70 : ℚ)/100
   else (1 : ℚ)/2)
  - t.cost / 100

/-- Stable insertion for a descending sort by score, matching Python's stable
`sorted(..., key=lambda x: x[1], reverse=True)`. -/
def insertDesc (x : Tool × ℚ) : List (Tool × ℚ) → List (Tool × ℚ)
  | [] => [x]
  | y :: ys => if y.2 ≤ x.2 then x :: y :: ys else y :: insertDesc x ys

/-- Stable descending sort by score (insertion sort; agrees with any stable
descending sort, in particular Python's). -/
def sortDesc : List (Tool × ℚ) → List (Tool × ℚ)
  | [] => []
  | x :: xs => insertDesc x (sortDesc xs)

/-- Parsing of a ranking reply: keep items whose name is one of the
applicable candidates, clamping `p` into `[0,1]`; a failed or malformed
reply yields no entries. -/
def parseRanked (candidates : List Tool) (reply : Option (List (String × ℚ))) :
    List (Tool × ℚ) :=
  match reply with
  | none => []
  | some data => data.filterMap (fun np =>
      match candidates.find? (fun t => t.name == np.1) with
      | some t => some (t, clamp01 np.2)
      | none => none)

/-- Mirrors `Planner.propose_tools` (`planner_viz.py`): applicable tools,
parsed GPT ranking, and the deterministic `heuristic_rank` fallback when the
parsed ranking is empty; at most `top_k` entries. -/
def propose_toolsViz (tools : List Tool) (o : OracleRun) (state : State) (top_k : Nat) :
    List (Tool × ℚ) :=
  let candidates := tools.filter (fun t => t.precondition state)
  if candidates.isEmpty then []
  else
    let ranked := parseRanked candidates (o.rankReply state)
    let ranked := if ranked.isEmpty then
        sortDesc (candidates.map (fun t => (t, heuristic_rank state t)))
      else ranked
    ranked.take top_k

/-- Mirrors `planner.propose_tools` (`planner.py`): same parsing but with NO
fallback ranking — a failed or malformed reply yields an empty list. -/
def propose_toolsPy (tools : List Tool) (o : OracleRun) (state : State) (top_k : Nat) :
    List (Tool × ℚ) :=
  let candidates := tools.filter (fun t => t.precondition state)
  if candidates.isEmpty then []
  else (parseRanked candidates (o.rankReply state)).take top_k

/-- Failures the two `astar` variants can raise: `RuntimeError("No plan
found")` on OPEN exhaustion, the `IndexError` of `tool_candidates[0]` on an
empty ranking (`planner.py` only), and the `ZeroDivisionError` of
`h / combined_p` when the un-floored combined probability is zero
(`planner.py` only). -/
inductive SearchError where
  | noPlanFound
  | indexError
  | zeroDivisionError
  deriving DecidableEq, Repr

/-- A plan: the ordered (tool, args) pairs accumulated along a search path. -/
abbrev Plan := List (Tool × List String)

/-- Mirrors the `Node` dataclass: order (for the heap) is by `f` alone. -/
structure Node where
  f : ℚ
  g : ℚ
  state : State
  plan : Plan

/-- The `1e-9` floor of `planner_viz.py`. -/
def eps : ℚ := 1 / 1000000000

/-- Mirrors `combined_p = max(1e-9, prob * tool_prior)` of `Planner.astar`
(`planner_viz.py`). -/
def combinedViz (prob prior : ℚ) : ℚ := pymax eps (prob * prior)

/-- Python float division: raises `ZeroDivisionError` on a zero divisor. -/
def pyDiv (a b : ℚ) : Except SearchError ℚ :=
  if b = 0 then Except.error SearchError.zeroDivisionError else Except.ok (a / b)

/-- `heapq.heappop`: remove a node of minimal `f` (the leftmost one; `Node`
comparison is on `f` alone, so any tie-break is consistent with the heap). -/
def popMin : List Node → Option (Node × List Node)
  | [] => none
  | n :: ns =>
    match popMin ns with
    | none => some (n, [])
    | some (m, rest) => if n.f ≤ m.f then some (n, ns) else some (m, n :: rest)

/-- One step of the running-best update
`if (best is None) or (f_new < best[0])` shared by both variants. -/
def bestStep (best : Option Node) (c : Node) : Option Node :=
  match best with
  | none => some c
  | some b => if c.f < b.f then some c else some b

/-- The globally best candidate of an expansion (first strict minimum by `f`). -/
def bestNode (cs : List Node) : Option Node := cs.foldl bestStep none

/-- The successor node built for one `(tool, args)` candidate in
`Planner.astar` (`planner_viz.py`): `g_new = node.g + tool.cost`,
`h_new = heuristic(sim_state) / combined_p`, `f_new = g_new + h_new`,
`plan = node.plan + [(tool, args)]`.  The division is written totally
because the floored divisor is provably positive (see the division-safety
theorem below). -/
def succNode (tools : List Tool) (o : OracleRun) (node : Node) (t : Tool) (prior : ℚ)
    (args : List String) (s' : State) : Node :=
  { f := node.g + t.cost + heuristic tools s' / combinedViz (o.predictVal node.state t args) prior
    g := node.g + t.cost
    state := s'
    plan := node.plan ++ [(t, args)] }

/-- All surviving `(tool, args)` successors evaluated in one expansion of
`Planner.astar` (`planner_viz.py`): every ranked tool whose precondition
still holds, every proposed argument tuple, simulated on a cloned state;
candidates whose tool call raises are discarded. -/
def candidatesViz (tools : List Tool) (o : OracleRun) (q : String) (node : Node) :
    List Node :=
  (propose_toolsViz tools o node.state 3).flatMap (fun tp =>
    if tp.1.precondition node.state then
      (propose_args o tp.1 node.state q).filterMap (fun args =>
        match Tool.callM tp.1 node.state args with
        | (Except.ok _, s') => some (succNode tools o node tp.1 tp.2 args s')
        | (Except.error _, _) => none)
    else [])

/-- One node expansion of `Planner.astar` (`planner_viz.py`): the nodes
pushed onto OPEN — the single best candidate, or nothing when no candidate
survives (including an empty tool ranking). -/
def expandViz (tools : List Tool) (o : OracleRun) (q : String) (node : Node) : List Node :=
  match bestNode (candidatesViz tools o q node) with
  | none => []
  | some b => [b]

/-- The search loop of `Planner.astar` (`planner_viz.py`), fueled (the fuel
bounds the number of loop iterations; `none` means the bound was reached).
Pop a minimal node, skip it if its state is closed, return its plan if its
state is the goal, otherwise close the state and push the expansion. -/
def astarLoopViz (tools : List Tool) (o : OracleRun) (q : String) :
    Nat → List Node → List State → Option (Except SearchError Plan)
  | 0, _, _ => none
  | fuel + 1, opens, closed =>
    match popMin opens with
    | none => some (Except.error SearchError.noPlanFound)
    | some (node, rest) =>
      if node.state ∈ closed then astarLoopViz tools o q fuel rest closed
      else if node.state.is_goal then some (Except.ok node.plan)
      else astarLoopViz tools o q fuel (rest ++ expandViz tools o q node)
        (node.state :: closed)

/-- The root node of both variants: `f = heuristic(initial_state)`, `g = 0`,
empty plan. -/
def rootNode (tools : List Tool) (init : State) : Node :=
  { f := heuristic tools init, g := 0, state := init, plan := [] }

/-- Mirrors `Planner.astar` (`planner_viz.py`): root node, then the loop.
The `RuntimeError("No plan found")` raise is `SearchError.noPlanFound`. -/
def astarViz (tools : List Tool) (fuel : Nat) (o : OracleRun) (q : String) (init : State) :
    Option (Except SearchError Plan) :=
  astarLoopViz tools o q fuel [rootNode tools init] []

/-- The inner argument loop of `planner.astar` (`planner.py`): evaluate every
argument candidate of the single chosen tool, keeping the running best.  The
division `h / (prob * prior)` has NO epsilon floor there, so a zero combined
probability raises `ZeroDivisionError`, which propagates out of the loop. -/
def evalArgsPy (tools : List Tool) (o : OracleRun) (node : Node) (t : Tool) (prior : ℚ) :
    List (List String) → Option Node → Except SearchError (Option Node)
  | [], best => Except.ok best
  | args :: rest, best =>
    match Tool.callM t node.state args with
    | (Except.error _, _) => evalArgsPy tools o node t prior rest best
    | (Except.ok _, s') =>
      match pyDiv (heuristic tools s') (o.predictVal node.state t args * prior) with
      | Except.error e => Except.error e
      | Except.ok h' =>
        let gN := node.g + t.cost
        evalArgsPy tools o node t prior rest
          (bestStep best { f := gN + h', g := gN, state := s', plan := node.plan ++ [(t, args)] })

/-- One node expansion of `planner.astar` (`planner.py`): the unguarded
`tool_candidates[0]` raises `IndexError` on an empty ranking; only the FIRST
ranked tool is ever considered. -/
def expandPy (tools : List Tool) (o : OracleRun) (q : String) (node : Node) :
    Except SearchError (Option Node) :=
  match propose_toolsPy tools o node.state 3 with
  | [] => Except.error SearchError.indexError
  | tp :: _ =>
    if tp.1.precondition node.state then
      evalArgsPy tools o node tp.1 tp.2 (propose_args o tp.1 node.state q) none
    else Except.ok none

/-- The search loop of `planner.astar` (`planner.py`), fueled as above.
Uncaught `IndexError`/`ZeroDivisionError` from an expansion propagate. -/
def astarLoopPy (tools : List Tool) (o : OracleRun) (q : String) :
    Nat → List Node → List State → Option (Except SearchError Plan)
  | 0, _, _ => none
  | fuel + 1, opens, closed =>
    match popMin opens with
    | none => some (Except.error SearchError.noPlanFound)
    | some (node, rest) =>
      if node.state ∈ closed then astarLoopPy tools o q fuel rest closed
      else if node.state.is_goal then some (Except.ok node.plan)
      else
        match expandPy tools o q node with
        | Except.error e => some (Except.error e)
        | Except.ok none => astarLoopPy tools o q fuel rest (node.state :: closed)
        | Except.ok (some n) => astarLoopPy tools o q fuel (rest ++ [n]) (node.state :: closed)

/-- Mirrors `planner.astar` (`planner.py`). -/
def astarPy (tools : List Tool) (fuel : Nat) (o : OracleRun) (q : String) (init : State) :
    Option (Except SearchError Plan) :=
  astarLoopPy tools o q fuel [rootNode tools init] []

/-- Replaying a plan from a state through `Tool.__call__`: stops with `none`
as soon as a call raises (precondition violation or effect error), otherwise
returns the final state.  This is the `Simulate` of the specification and
the executor loop of `main`. -/
def simulate : State → Plan → Option State
  | s, [] => some s
  | s, (t, args) :: rest =>
    match Tool.callM t s args with
    | (Except.ok _, s') => simulate s' rest
    | (Except.error _, _) => none

/-- Sum of the intrinsic costs of the tools of a plan. -/
def planCost : Plan → ℚ
  | [] => 0
  | (t, _) :: rest => t.cost + planCost rest

/-- The node invariant of the search: the node's state is the replay of its
plan from the initial state, and its `g` is the plan's accumulated cost. -/
def NodeInv (init : State) (n : Node) : Prop :=
  simulate init n.plan = some n.state ∧ n.g = planCost n.plan

/-- Mirrors `predict_success` (identical in both planner variants).  The
reply is `none` when the OpenAI call failed (then the eagerly evaluated
default `str(random.uniform(0.4, 0.9))` is parsed back, yielding the first
random draw), `some none` when the call succeeded but `float(out)` raised
`ValueError` (yielding a second random draw), and `some (some x)` when the
reply parsed as the float `x` — which is returned UNCLAMPED. -/
def predict_success (reply : Option (Option ℚ)) (randFail randParse : ℚ) : ℚ :=
  match reply with
  | none => randFail
  | some none => randParse
  | some (some x) => x

/-- Modelled from the claim's words, for comparison with `expandPy`: the
successors obtained by evaluating ALL ranked tools whose precondition holds
and all their proposed argument tuples with the `planner.py` cost formula
`f' = g' + heuristic(successor) / (prob * prior)`. -/
def allRankedCandidatesPy (tools : List Tool) (o : OracleRun) (q : String) (node : Node) :
    List Node :=
  (propose_toolsPy tools o node.state 3).flatMap (fun tp =>
    if tp.1.precondition node.state then
      (propose_args o tp.1 node.state q).filterMap (fun args =>
        match Tool.callM tp.1 node.state args with
        | (Except.ok _, s') =>
          some { f := node.g + tp.1.cost
                   + heuristic tools s' / (o.predictVal node.state tp.1 args * tp.2)
                 g := node.g + tp.1.cost
                 state := s'
                 plan := node.plan ++ [(tp.1, args)] }
        | (Except.error _, _) => none)
    else [])

/-- The goal text of the oracle-failure resilience scenario. -/
def q4 : String := "Book a train from New York to Boston"

/-- The empty initial state `State()`. -/
def s0 : State := {}

/-- An oracle run in which every GPT call fails; `pred` gives the random
`uniform(0.4, 0.9)` draws that `predict_success` then returns. -/
def failOracle (pred : State → Tool → List String → ℚ) : OracleRun :=
  { rankReply := fun _ => none
    argsReply := fun _ _ => none
    predictVal := pred }

/-- A concrete assignment of random draws: every estimate is 0.5. -/
def predHalf : State → Tool → List String → ℚ := fun _ _ _ => 1/2

/-- A concrete assignment of random draws favouring the argument "Book". -/
def predBook : State → Tool → List String → ℚ :=
  fun _ _ args => if args == ["Book"] then 7/10 else 1/2

theorem bestStep_none (c : Node) : bestStep none c = some c := rfl

theorem bestStep_some (b c : Node) :
    bestStep (some b) c = if c.f < b.f then some c else some b := rfl

theorem foldl_bestStep_spec :
    ∀ (l : List Node) (a : Node),
      ∃ b, l.foldl bestStep (some a) = some b ∧ (b = a ∨ b ∈ l) ∧
        b.f ≤ a.f ∧ ∀ c ∈ l, b.f ≤ c.f := by
  intro l
  induction l with
  | nil => exact fun a => ⟨a, rfl, Or.inl rfl, le_refl _, by simp⟩
  | cons c cs ih =>
    intro a
    rw [List.foldl_cons, bestStep_some]
    by_cases h : c.f < a.f
    · rw [if_pos h]
      obtain ⟨b, hb, hmem, hle, hall⟩ := ih c
      refine ⟨b, hb, ?_, ?_, ?_⟩
      · rcases hmem with h' | h' <;> simp [h']
      · exact le_of_lt (lt_of_le_of_lt hle h)
      · intro x hx
        rcases List.mem_cons.mp hx with h' | h'
        · exact h' ▸ hle
        · exact hall x h'
    · rw [if_neg h]
      obtain ⟨b, hb, hmem, hle, hall⟩ := ih a
      refine ⟨b, hb, ?_, hle, ?_⟩
      · rcases hmem with h' | h' <;> simp [h']
      · intro x hx
        rcases List.mem_cons.mp hx with h' | h'
        · exact h' ▸ le_trans hle (not_lt.mp h)
        · exact hall x h'

theorem bestNode_spec (l : List Node) (h : l ≠ []) :
    ∃ b ∈ l, bestNode l = some b ∧ ∀ c ∈ l, b.f ≤ c.f := by
  match l with
  | [] => exact absurd rfl h
  | c :: cs =>
    obtain ⟨b, hb, hmem, hle, hall⟩ := foldl_bestStep_spec cs c
    refine ⟨b, ?_, hb, ?_⟩
    · rcases hmem with h' | h' <;> simp [h']
    · intro x hx
      rcases List.mem_cons.mp hx with h' | h'
      · exact h' ▸ hle
      · exact hall x h'

theorem bestNode_eq_spec (l : List Node) (b : Node) (h : bestNode l = some b) :
    b ∈ l ∧ ∀ c ∈ l, b.f ≤ c.f := by
  match l with
  | [] => exact absurd h (by simp [bestNode])
  | c :: cs =>
    obtain ⟨b', hb', hmem, hle, hall⟩ := foldl_bestStep_spec cs c
    have : b' = b := by
      have := hb'.symm.trans h
      exact Option.some.inj this
    subst this
    refine ⟨?_, ?_⟩
    · rcases hmem with h' | h' <;> simp [h']
    · intro x hx
      rcases List.mem_cons.mp hx with h' | h'
      · exact h' ▸ hle
      · exact hall x h'

theorem bestNode_one (a : Node) : bestNode [a] = some a := rfl

theorem bestNode_two (a b : Node) (h1 : ¬ b.f < a.f) : bestNode [a, b] = some a := by
  show List.foldl bestStep none [a, b] = some a
  simp only [List.foldl_cons, List.foldl_nil, bestStep_none]
  rw [bestStep_some, if_neg h1]

theorem bestNode_three (a b c : Node) (h1 : ¬ b.f < a.f) (h2 : ¬ c.f < a.f) :
    bestNode [a, b, c] = some a := by
  show List.foldl bestStep none [a, b, c] = some a
  simp only [List.foldl_cons, List.foldl_nil, bestStep_none]
  rw [bestStep_some, if_neg h1, bestStep_some, if_neg h2]

theorem popMin_sub :
    ∀ (l : List Node) (n : Node) (rest : List Node),
      popMin l = some (n, rest) → n ∈ l ∧ ∀ x ∈ rest, x ∈ l := by
  intro l
  induction l with
  | nil => intro n rest h; simp [popMin] at h
  | cons c cs ih =>
    intro n rest h
    rw [popMin] at h
    rcases hp : popMin cs with _ | ⟨m, r⟩
    · rw [hp] at h
      replace h : some (c, ([] : List Node)) = some (n, rest) := h
      cases h
      exact ⟨List.mem_cons_self c cs, by simp⟩
    · rw [hp] at h
      replace h : (if c.f ≤ m.f then some (c, cs) else some (m, c :: r)) = some (n, rest) := h
      by_cases hle : c.f ≤ m.f
      · rw [if_pos hle] at h
        cases h
        exact ⟨List.mem_cons_self c cs, fun x hx => List.mem_cons_of_mem c hx⟩
      · rw [if_neg hle] at h
        injection h with h'
        obtain ⟨h1, h2⟩ := Prod.mk.inj h'
        subst h1
        subst h2
        obtain ⟨hm, hr⟩ := ih m r hp
        refine ⟨List.mem_cons_of_mem c hm, ?_⟩
        intro x hx
        rcases List.mem_cons.mp hx with h' | h'
        · exact h' ▸ List.mem_cons_self c cs
        · exact List.mem_cons_of_mem c (hr x h')

theorem simulate_append (p1 p2 : Plan) (s : State) :
    simulate s (p1 ++ p2) = (simulate s p1).bind (fun s' => simulate s' p2) := by
  induction p1 generalizing s with
  | nil => simp [simulate]
  | cons step rest ih =>
    obtain ⟨t, args⟩ := step
    rw [List.cons_append, simulate, simulate]
    rcases Tool.callM t s args with ⟨res, s'⟩
    cases res with
    | ok b => exact ih s'
    | error e => simp

theorem planCost_append (p : Plan) (t : Tool) (args : List String) :
    planCost (p ++ [(t, args)]) = planCost p + t.cost := by
  induction p with
  | nil => simp [planCost]
  | cons step rest ih =>
    obtain ⟨t', args'⟩ := step
    rw [List.cons_append, planCost, planCost, ih, add_assoc]

theorem candidatesViz_inv (tools : List Tool) (o : OracleRun) (q : String) (init : State)
    (n : Node) (hn : NodeInv init n) :
    ∀ c ∈ candidatesViz tools o q n, NodeInv init c := by
  intro c hc
  rw [candidatesViz, List.mem_flatMap] at hc
  obtain ⟨tp, _, hc⟩ := hc
  by_cases hp : tp.1.precondition n.state = true
  · rw [if_pos hp, List.mem_filterMap] at hc
    obtain ⟨args, _, heq⟩ := hc
    rcases hcall : Tool.callM tp.1 n.state args with ⟨res, s'⟩
    rw [hcall] at heq
    cases res with
    | error e => simp at heq
    | ok b =>
      obtain rfl : succNode tools o n tp.1 tp.2 args s' = c := by
        simpa using heq
      constructor
      · show simulate init (n.plan ++ [(tp.1, args)]) = some s'
        rw [simulate_append, hn.1]
        show simulate n.state [(tp.1, args)] = some s'
        rw [simulate, hcall]
        rfl
      · show n.g + tp.1.cost = planCost (n.plan ++ [(tp.1, args)])
        rw [planCost_append, hn.2]
  · rw [if_neg hp] at hc
    simp at hc

theorem expandViz_inv (tools : List Tool) (o : OracleRun) (q : String) (init : State)
    (n : Node) (hn : NodeInv init n) :
    ∀ m ∈ expandViz tools o q n, NodeInv init m := by
  intro m hm
  rw [expandViz] at hm
  rcases hb : bestNode (candidatesViz tools o q n) with _ | b <;> rw [hb] at hm
  · simp at hm
  · obtain rfl : m = b := by simpa using hm
    exact candidatesViz_inv tools o q init n hn m (bestNode_eq_spec _ m hb).1

theorem expandViz_eq (tools : List Tool) (o : OracleRun) (q : String) (n : Node)
    (h : candidatesViz tools o q n ≠ []) :
    ∃ b ∈ candidatesViz tools o q n, expandViz tools o q n = [b] := by
  obtain ⟨b, hb, he, _⟩ := bestNode_spec _ h
  exact ⟨b, hb, by rw [expandViz, he]⟩

theorem loop_step (tools : List Tool) (o : OracleRun) (q : String) (fuel : Nat) (node : Node)
    (closed : List State) (hmem : node.state ∉ closed) (hgoal : node.state.is_goal = false) :
    astarLoopViz tools o q (fuel + 1) [node] closed =
      astarLoopViz tools o q fuel (expandViz tools o q node) (node.state :: closed) := by
  show (if node.state ∈ closed then astarLoopViz tools o q fuel [] closed
        else if node.state.is_goal then some (Except.ok node.plan)
        else astarLoopViz tools o q fuel ([] ++ expandViz tools o q node) (node.state :: closed)) =
    astarLoopViz tools o q fuel (expandViz tools o q node) (node.state :: closed)
  rw [if_neg hmem, if_neg (by simp [hgoal]), List.nil_append]

theorem loop_goal (tools : List Tool) (o : OracleRun) (q : String) (fuel : Nat) (node : Node)
    (closed : List State) (hmem : node.state ∉ closed) (hgoal : node.state.is_goal = true) :
    astarLoopViz tools o q (fuel + 1) [node] closed = some (Except.ok node.plan) := by
  show (if node.state ∈ closed then astarLoopViz tools o q fuel [] closed
        else if node.state.is_goal then some (Except.ok node.plan)
        else astarLoopViz tools o q fuel ([] ++ expandViz tools o q node) (node.state :: closed)) =
    some (Except.ok node.plan)
  rw [if_neg hmem, if_pos hgoal]

theorem astarLoopViz_valid (tools : List Tool) (o : OracleRun) (q : String) (init : State) :
    ∀ (fuel : Nat) (opens : List Node) (closed : List State) (plan : Plan),
      (∀ n ∈ opens, NodeInv init n) →
      astarLoopViz tools o q fuel opens closed = some (Except.ok plan) →
      ∃ s, simulate init plan = some s ∧ s.is_goal = true := by
  intro fuel
  induction fuel with
  | zero => intro opens closed plan _ h; simp [astarLoopViz] at h
  | succ fuel ih =>
    intro opens closed plan hinv h
    rw [astarLoopViz] at h
    rcases hp : popMin opens with _ | ⟨node, rest⟩ <;> rw [hp] at h
    · replace h : some (Except.error SearchError.noPlanFound) = some (Except.ok plan) := h
      simp at h
    · replace h : (if node.state ∈ closed then astarLoopViz tools o q fuel rest closed
          else if node.state.is_goal then some (Except.ok node.plan)
          else astarLoopViz tools o q fuel (rest ++ expandViz tools o q node)
            (node.state :: closed)) = some (Except.ok plan) := h
      obtain ⟨hnode, hrest⟩ := popMin_sub opens node rest hp
      by_cases h1 : node.state ∈ closed
      · rw [if_pos h1] at h
        exact ih rest closed plan (fun n hn => hinv n (hrest n hn)) h
      · rw [if_neg h1] at h
        by_cases h2 : node.state.is_goal = true
        · rw [if_pos h2] at h
          injection h with h'
          injection h' with h''
          subst h''
          exact ⟨node.state, (hinv node hnode).1, h2⟩
        · rw [if_neg h2] at h
          refine ih _ _ plan ?_ h
          intro n hn
          rcases List.mem_append.mp hn with h' | h'
          · exact hinv n (hrest n h')
          · exact expandViz_inv tools o q init node (hinv node hnode) n h'

theorem astarLoopViz_result (tools : List Tool) (o : OracleRun) (q : String) :
    ∀ (fuel : Nat) (opens : List Node) (closed : List State) (r : Except SearchError Plan),
      astarLoopViz tools o q fuel opens closed = some r →
      (∃ p, r = Except.ok p) ∨ r = Except.error SearchError.noPlanFound := by
  intro fuel
  induction fuel with
  | zero => intro opens closed r h; simp [astarLoopViz] at h
  | succ fuel ih =>
    intro opens closed r h
    rw [astarLoopViz] at h
    rcases hp : popMin opens with _ | ⟨node, rest⟩ <;> rw [hp] at h
    · replace h : some (Except.error SearchError.noPlanFound) = some r := h
      injection h with h'
      exact Or.inr h'.symm
    · replace h : (if node.state ∈ closed then astarLoopViz tools o q fuel rest closed
          else if node.state.is_goal then some (Except.ok node.plan)
          else astarLoopViz tools o q fuel (rest ++ expandViz tools o q node)
            (node.state :: closed)) = some r := h
      by_cases h1 : node.state ∈ closed
      · rw [if_pos h1] at h
        exact ih _ _ _ h
      · rw [if_neg h1] at h
        by_cases h2 : node.state.is_goal = true
        · rw [if_pos h2] at h
          injection h with h'
          exact Or.inl ⟨node.plan, h'.symm⟩
        · rw [if_neg h2] at h
          exact ih _ _ _ h

theorem expand_root (pred : State → Tool → List String → ℚ) :
    ∃ c1 ∈ (["Book", "New York", "Boston"] : List String), ∃ fc gc : ℚ,
      expandViz TOOLS (failOracle pred) q4 (rootNode TOOLS s0) =
        [{ f := fc, g := gc, state := ⟨some c1, none, none, false⟩,
           plan := [(set_origin, [c1])] }] := by
  have hc : candidatesViz TOOLS (failOracle pred) q4 (rootNode TOOLS s0) =
      [succNode TOOLS (failOracle pred) (rootNode TOOLS s0) set_origin
         (heuristic_rank s0 set_origin) ["Book"] ⟨some "Book", none, none, false⟩,
       succNode TOOLS (failOracle pred) (rootNode TOOLS s0) set_origin
         (heuristic_rank s0 set_origin) ["New York"] ⟨some "New York", none, none, false⟩,
       succNode TOOLS (failOracle pred) (rootNode TOOLS s0) set_origin
         (heuristic_rank s0 set_origin) ["Boston"] ⟨some "Boston", none, none, false⟩] := rfl
  obtain ⟨b, hb, he⟩ := expandViz_eq TOOLS (failOracle pred) q4 (rootNode TOOLS s0)
    (by rw [hc]; simp)
  rw [hc] at hb
  rcases List.mem_cons.mp hb with rfl | hb
  · exact ⟨"Book", by simp, _, _, he⟩
  rcases List.mem_cons.mp hb with rfl | hb
  · exact ⟨"New York", by simp, _, _, he⟩
  rcases List.mem_cons.mp hb with rfl | hb
  · exact ⟨"Boston", by simp, _, _, he⟩
  exact absurd hb (by simp)

theorem expand_origin (pred : State → Tool → List String → ℚ) (c1 : String)
    (f1 g1 : ℚ) (p1 : Plan) :
    ∃ c2 ∈ (["New York", "Boston"] : List String), ∃ fc gc : ℚ,
      expandViz TOOLS (failOracle pred) q4 ⟨f1, g1, ⟨some c1, none, none, false⟩, p1⟩ =
        [{ f := fc, g := gc, state := ⟨some c1, some c2, none, false⟩,
           plan := p1 ++ [(set_destination, [c2])] }] := by
  have hc : candidatesViz TOOLS (failOracle pred) q4
        ⟨f1, g1, ⟨some c1, none, none, false⟩, p1⟩ =
      [succNode TOOLS (failOracle pred) ⟨f1, g1, ⟨some c1, none, none, false⟩, p1⟩
         set_destination (heuristic_rank ⟨some c1, none, none, false⟩ set_destination)
         ["New York"] ⟨some c1, some "New York", none, false⟩,
       succNode TOOLS (failOracle pred) ⟨f1, g1, ⟨some c1, none, none, false⟩, p1⟩
         set_destination (heuristic_rank ⟨some c1, none, none, false⟩ set_destination)
         ["Boston"] ⟨some c1, some "Boston", none, false⟩] := rfl
  obtain ⟨b, hb, he⟩ := expandViz_eq TOOLS (failOracle pred) q4 _ (by rw [hc]; simp)
  rw [hc] at hb
  rcases List.mem_cons.mp hb with rfl | hb
  · exact ⟨"New York", by simp, _, _, he⟩
  rcases List.mem_cons.mp hb with rfl | hb
  · exact ⟨"Boston", by simp, _, _, he⟩
  exact absurd hb (by simp)

theorem expand_dest (pred : State → Tool → List String → ℚ) (c1 c2 : String)
    (f2 g2 : ℚ) (p2 : Plan) :
    ∃ m ∈ TRANSPORT_MODES, ∃ fc gc : ℚ,
      expandViz TOOLS (failOracle pred) q4 ⟨f2, g2, ⟨some c1, some c2, none, false⟩, p2⟩ =
        [{ f := fc, g := gc, state := ⟨some c1, some c2, some m, false⟩,
           plan := p2 ++ [(select_transport, [m])] }] := by
  have hc : candidatesViz TOOLS (failOracle pred) q4
        ⟨f2, g2, ⟨some c1, some c2, none, false⟩, p2⟩ =
      [succNode TOOLS (failOracle pred) ⟨f2, g2, ⟨some c1, some c2, none, false⟩, p2⟩
         select_transport (heuristic_rank ⟨some c1, some c2, none, false⟩ select_transport)
         ["train"] ⟨some c1, some c2, some "train", false⟩,
       succNode TOOLS (failOracle pred) ⟨f2, g2, ⟨some c1, some c2, none, false⟩, p2⟩
         select_transport (heuristic_rank ⟨some c1, some c2, none, false⟩ select_transport)
         ["flight"] ⟨some c1, some c2, some "flight", false⟩,
       succNode TOOLS (failOracle pred) ⟨f2, g2, ⟨some c1, some c2, none, false⟩, p2⟩
         select_transport (heuristic_rank ⟨some c1, some c2, none, false⟩ select_transport)
         ["bus"] ⟨some c1, some c2, some "bus", false⟩] := rfl
  obtain ⟨b, hb, he⟩ := expandViz_eq TOOLS (failOracle pred) q4 _ (by rw [hc]; simp)
  rw [hc] at hb
  rcases List.mem_cons.mp hb with rfl | hb
  · exact ⟨"train", by simp [TRANSPORT_MODES], _, _, he⟩
  rcases List.mem_cons.mp hb with rfl | hb
  · exact ⟨"flight", by simp [TRANSPORT_MODES], _, _, he⟩
  rcases List.mem_cons.mp hb with rfl | hb
  · exact ⟨"bus", by simp [TRANSPORT_MODES], _, _, he⟩
  exact absurd hb (by simp)

theorem expand_trans (pred : State → Tool → List String → ℚ) (c1 c2 m : String)
    (f3 g3 : ℚ) (p3 : Plan) :
    ∃ fc gc : ℚ,
      expandViz TOOLS (failOracle pred) q4 ⟨f3, g3, ⟨some c1, some c2, some m, false⟩, p3⟩ =
        [{ f := fc, g := gc, state := ⟨some c1, some c2, some m, true⟩,
           plan := p3 ++ [(confirm_booking, [])] }] :=
  ⟨_, _, rfl⟩

/-- C4 (amended): with every Oracle call failing and for ANY values of the
random success draws, the search on the goal text "Book a train from New
York to Boston" returns a valid four-step plan `set_origin(c1)`,
`set_destination(c2)`, `select_transport(m)`, `confirm_booking()` whose
replay reaches a confirmed state — but `c1` is only guaranteed to be one of
the capitalized phrases extracted from the goal text ("Book", "New York" or
"Boston"; "Book" is extracted first and can score best), `c2` one of
"New York"/"Boston", and `m` one of the transport modes. -/
theorem oracle_fallback_plan (pred : State → Tool → List String → ℚ) :
    ∃ c1 ∈ (["Book", "New York", "Boston"] : List String),
    ∃ c2 ∈ (["New York", "Boston"] : List String),
    ∃ m ∈ TRANSPORT_MODES,
      astarViz TOOLS 5 (failOracle pred) q4 s0 =
        some (Except.ok [(set_origin, [c1]), (set_destination, [c2]),
          (select_transport, [m]), (confirm_booking, [])]) ∧
      simulate s0 [(set_origin, [c1]), (set_destination, [c2]),
          (select_transport, [m]), (confirm_booking, [])] =
        some ⟨some c1, some c2, some m, true⟩ := by
  obtain ⟨c1, hc1, f1, g1, he1⟩ := expand_root pred
  obtain ⟨c2, hc2, f2, g2, he2⟩ := expand_origin pred c1 f1 g1 [(set_origin, [c1])]
  obtain ⟨m, hm, f3, g3, he3⟩ := expand_dest pred c1 c2 f2 g2
    ([(set_origin, [c1])] ++ [(set_destination, [c2])])
  obtain ⟨f4, g4, he4⟩ := expand_trans pred c1 c2 m f3 g3
    (([(set_origin, [c1])] ++ [(set_destination, [c2])]) ++ [(select_transport, [m])])
  refine ⟨c1, hc1, c2, hc2, m, hm, ?_, ?_⟩
  · calc astarViz TOOLS 5 (failOracle pred) q4 s0
        = astarLoopViz TOOLS (failOracle pred) q4 5 [rootNode TOOLS s0] [] := rfl
      _ = astarLoopViz TOOLS (failOracle pred) q4 4
            (expandViz TOOLS (failOracle pred) q4 (rootNode TOOLS s0)) [s0] :=
          loop_step _ _ _ 4 _ _ (by simp) rfl
      _ = astarLoopViz TOOLS (failOracle pred) q4 4
            [⟨f1, g1, ⟨some c1, none, none, false⟩, [(set_origin, [c1])]⟩] [s0] := by
          rw [he1]
      _ = astarLoopViz TOOLS (failOracle pred) q4 3
            (expandViz TOOLS (failOracle pred) q4
              ⟨f1, g1, ⟨some c1, none, none, false⟩, [(set_origin, [c1])]⟩)
            [⟨some c1, none, none, false⟩, s0] :=
          loop_step _ _ _ 3 _ _ (by simp [s0]) rfl
      _ = astarLoopViz TOOLS (failOracle pred) q4 3
            [⟨f2, g2, ⟨some c1, some c2, none, false⟩,
              [(set_origin, [c1])] ++ [(set_destination, [c2])]⟩]
            [⟨some c1, none, none, false⟩, s0] := by
          rw [he2]
      _ = astarLoopViz TOOLS (failOracle pred) q4 2
            (expandViz TOOLS (failOracle pred) q4
              ⟨f2, g2, ⟨some c1, some c2, none, false⟩,
                [(set_origin, [c1])] ++ [(set_destination, [c2])]⟩)
            [⟨some c1, some c2, none, false⟩, ⟨some c1, none, none, false⟩, s0] :=
          loop_step _ _ _ 2 _ _ (by simp [s0]) rfl
      _ = astarLoopViz TOOLS (failOracle pred) q4 2
            [⟨f3, g3, ⟨some c1, some c2, some m, false⟩,
              ([(set_origin, [c1])] ++ [(set_destination, [c2])]) ++ [(select_transport, [m])]⟩]
            [⟨some c1, some c2, none, false⟩, ⟨some c1, none, none, false⟩, s0] := by
          rw [he3]
      _ = astarLoopViz TOOLS (failOracle pred) q4 1
            (expandViz TOOLS (failOracle pred) q4
              ⟨f3, g3, ⟨some c1, some c2, some m, false⟩,
                ([(set_origin, [c1])] ++ [(set_destination, [c2])]) ++ [(select_transport, [m])]⟩)
            [⟨some c1, some c2, some m, false⟩, ⟨some c1, some c2, none, false⟩,
             ⟨some c1, none, none, false⟩, s0] :=
          loop_step _ _ _ 1 _ _ (by simp [s0]) rfl
      _ = astarLoopViz TOOLS (failOracle pred) q4 1
            [⟨f4, g4, ⟨some c1, some c2, some m, true⟩,
              (([(set_origin, [c1])] ++ [(set_destination, [c2])]) ++ [(select_transport, [m])])
                ++ [(confirm_booking, [])]⟩]
            [⟨some c1, some c2, some m, false⟩, ⟨some c1, some c2, none, false⟩,
             ⟨some c1, none, none, false⟩, s0] := by
          rw [he4]
      _ = some (Except.ok [(set_origin, [c1]), (set_destination, [c2]),
            (select_transport, [m]), (confirm_booking, [])]) :=
          loop_goal _ _ _ 0 _ _ (by simp [s0]) rfl
  · rfl

/-- Intermediate states of the concrete fallback run with `predBook`. -/
def stB0 : State := ⟨some "Book", none, none, false⟩

def stB1 : State := ⟨some "Book", some "New York", none, false⟩

def stB2 : State := ⟨some "Book", some "New York", some "train", false⟩

def stB3 : State := ⟨some "Book", some "New York", some "train", true⟩

/-- The nodes pushed during the concrete fallback run with `predBook`. -/
def nb1 : Node :=
  succNode TOOLS (failOracle predBook) (rootNode TOOLS s0) set_origin
    (heuristic_rank s0 set_origin) ["Book"] stB0

def nb2 : Node :=
  succNode TOOLS (failOracle predBook) nb1 set_destination
    (heuristic_rank stB0 set_destination) ["New York"] stB1

def nb3 : Node :=
  succNode TOOLS (failOracle predBook) nb2 select_transport
    (heuristic_rank stB1 select_transport) ["train"] stB2

def nb4 : Node :=
  succNode TOOLS (failOracle predBook) nb3 confirm_booking
    (heuristic_rank stB2 confirm_booking) [] stB3

/-- The plan found by the all-fallback search when the random success
estimates favour the first extracted phrase "Book". -/
def planBook : Plan :=
  [(set_origin, ["Book"]), (set_destination, ["New York"]),
   (select_transport, ["train"]), (confirm_booking, [])]

theorem expandBook_root :
    expandViz TOOLS (failOracle predBook) q4 (rootNode TOOLS s0) = [nb1] := by
  have hNY : ¬ ((succNode TOOLS (failOracle predBook) (rootNode TOOLS s0) set_origin
        (heuristic_rank s0 set_origin) ["New York"] ⟨some "New York", none, none, false⟩).f
      < nb1.f) := by
    show ¬ ((0:ℚ) + 1 + 1 / combinedViz ((1:ℚ)/2) ((70:ℚ)/100 - 1/100) <
            (0:ℚ) + 1 + 1 / combinedViz ((7:ℚ)/10) ((70:ℚ)/100 - 1/100))
    simp only [combinedViz, pymax]
    rw [if_pos (show eps < (1:ℚ)/2 * ((70:ℚ)/100 - 1/100) by norm_num [eps]),
        if_pos (show eps < (7:ℚ)/10 * ((70:ℚ)/100 - 1/100) by norm_num [eps])]
    norm_num
  have hBos : ¬ ((succNode TOOLS (failOracle predBook) (rootNode TOOLS s0) set_origin
        (heuristic_rank s0 set_origin) ["Boston"] ⟨some "Boston", none, none, false⟩).f
      < nb1.f) := by
    show ¬ ((0:ℚ) + 1 + 1 / combinedViz ((1:ℚ)/2) ((70:ℚ)/100 - 1/100) <
            (0:ℚ) + 1 + 1 / combinedViz ((7:ℚ)/10) ((70:ℚ)/100 - 1/100))
    simp only [combinedViz, pymax]
    rw [if_pos (show eps < (1:ℚ)/2 * ((70:ℚ)/100 - 1/100) by norm_num [eps]),
        if_pos (show eps < (7:ℚ)/10 * ((70:ℚ)/100 - 1/100) by norm_num [eps])]
    norm_num
  rw [expandViz,
    show candidatesViz TOOLS (failOracle predBook) q4 (rootNode TOOLS s0) =
      [nb1,
       succNode TOOLS (failOracle predBook) (rootNode TOOLS s0) set_origin
         (heuristic_rank s0 set_origin) ["New York"] ⟨some "New York", none, none, false⟩,
       succNode TOOLS (failOracle predBook) (rootNode TOOLS s0) set_origin
         (heuristic_rank s0 set_origin) ["Boston"] ⟨some "Boston", none, none, false⟩] from rfl,
    bestNode_three _ _ _ hNY hBos]

theorem expandBook_1 : expandViz TOOLS (failOracle predBook) q4 nb1 = [nb2] := by
  have hcmp : ¬ ((succNode TOOLS (failOracle predBook) nb1 set_destination
      (heuristic_rank stB0 set_destination) ["Boston"]
      ⟨some "Book", some "Boston", none, false⟩).f < nb2.f) := lt_irrefl _
  rw [expandViz,
    show candidatesViz TOOLS (failOracle predBook) q4 nb1 =
      [nb2,
       succNode TOOLS (failOracle predBook) nb1 set_destination
         (heuristic_rank stB0 set_destination) ["Boston"]
         ⟨some "Book", some "Boston", none, false⟩] from rfl,
    bestNode_two _ _ hcmp]

theorem expandBook_2 : expandViz TOOLS (failOracle predBook) q4 nb2 = [nb3] := by
  have hcmp1 : ¬ ((succNode TOOLS (failOracle predBook) nb2 select_transport
      (heuristic_rank stB1 select_transport) ["flight"]
      ⟨some "Book", some "New York", some "flight", false⟩).f < nb3.f) := lt_irrefl _
  have hcmp2 : ¬ ((succNode TOOLS (failOracle predBook) nb2 select_transport
      (heuristic_rank stB1 select_transport) ["bus"]
      ⟨some "Book", some "New York", some "bus", false⟩).f < nb3.f) := lt_irrefl _
  rw [expandViz,
    show candidatesViz TOOLS (failOracle predBook) q4 nb2 =
      [nb3,
       succNode TOOLS (failOracle predBook) nb2 select_transport
         (heuristic_rank stB1 select_transport) ["flight"]
         ⟨some "Book", some "New York", some "flight", false⟩,
       succNode TOOLS (failOracle predBook) nb2 select_transport
         (heuristic_rank stB1 select_transport) ["bus"]
         ⟨some "Book", some "New York", some "bus", false⟩] from rfl,
    bestNode_three _ _ _ hcmp1 hcmp2]

theorem expandBook_3 : expandViz TOOLS (failOracle predBook) q4 nb3 = [nb4] := rfl

theorem astarViz_predBook :
    astarViz TOOLS 5 (failOracle predBook) q4 s0 = some (Except.ok planBook) := by
  calc astarViz TOOLS 5 (failOracle predBook) q4 s0
      = astarLoopViz TOOLS (failOracle predBook) q4 5 [rootNode TOOLS s0] [] := rfl
    _ = astarLoopViz TOOLS (failOracle predBook) q4 4
          (expandViz TOOLS (failOracle predBook) q4 (rootNode TOOLS s0)) [s0] :=
        loop_step _ _ _ 4 _ _ (by simp) rfl
    _ = astarLoopViz TOOLS (failOracle predBook) q4 4 [nb1] [s0] := by rw [expandBook_root]
    _ = astarLoopViz TOOLS (failOracle predBook) q4 3
          (expandViz TOOLS (failOracle predBook) q4 nb1) [stB0, s0] :=
        loop_step _ _ _ 3 _ _ (by decide) rfl
    _ = astarLoopViz TOOLS (failOracle predBook) q4 3 [nb2] [stB0, s0] := by rw [expandBook_1]
    _ = astarLoopViz TOOLS (failOracle predBook) q4 2
          (expandViz TOOLS (failOracle predBook) q4 nb2) [stB1, stB0, s0] :=
        loop_step _ _ _ 2 _ _ (by decide) rfl
    _ = astarLoopViz TOOLS (failOracle predBook) q4 2 [nb3] [stB1, stB0, s0] := by rw [expandBook_2]
    _ = astarLoopViz TOOLS (failOracle predBook) q4 1
          (expandViz TOOLS (failOracle predBook) q4 nb3) [stB2, stB1, stB0, s0] :=
        loop_step _ _ _ 1 _ _ (by decide) rfl
    _ = astarLoopViz TOOLS (failOracle predBook) q4 1 [nb4] [stB2, stB1, stB0, s0] := by
        rw [expandBook_3]
    _ = some (Except.ok planBook) := loop_goal _ _ _ 0 _ _ (by decide) rfl

/-- An oracle whose ranking parses but whose only argument candidate is the
empty tuple, so every effect raises and OPEN is exhausted. -/
def badOracle : OracleRun :=
  { rankReply := fun _ => some [("set_origin", 1)]
    argsReply := fun _ _ => some [[]]
    predictVal := fun _ _ _ => 1/2 }

/-- An oracle whose success estimate is exactly 0 (a reply "0" parsed by
`predict_success`), exposing the missing floor in `planner.py`. -/
def zeroOracle : OracleRun :=
  { rankReply := fun _ => some [("set_origin", 1)]
    argsReply := fun _ _ => some [["X"]]
    predictVal := fun _ _ _ => 0 }

/-- An oracle whose ranking reply names the same tool twice with different
priors, separating `planner.py` (first entry only) from the global best.  -/
def dupOracle : OracleRun :=
  { rankReply := fun _ => some [("set_origin", 1/10), ("set_origin", 9/10)]
    argsReply := fun _ _ => some [["X"]]
    predictVal := fun _ _ _ => 1/2 }

/-- The node `Planner.astar` (`planner_viz.py`) pushes first when all Oracle
calls fail and every random estimate is 0.5 (ties keep the first candidate,
the extracted phrase "Book"). -/
def nh1 : Node :=
  succNode TOOLS (failOracle predHalf) (rootNode TOOLS s0) set_origin
    (heuristic_rank s0 set_origin) ["Book"] stB0

theorem expandHalf_root :
    expandViz TOOLS (failOracle predHalf) q4 (rootNode TOOLS s0) = [nh1] := by
  have h1 : ¬ ((succNode TOOLS (failOracle predHalf) (rootNode TOOLS s0) set_origin
      (heuristic_rank s0 set_origin) ["New York"] ⟨some "New York", none, none, false⟩).f
      < nh1.f) := lt_irrefl _
  have h2 : ¬ ((succNode TOOLS (failOracle predHalf) (rootNode TOOLS s0) set_origin
      (heuristic_rank s0 set_origin) ["Boston"] ⟨some "Boston", none, none, false⟩).f
      < nh1.f) := lt_irrefl _
  rw [expandViz,
    show candidatesViz TOOLS (failOracle predHalf) q4 (rootNode TOOLS s0) =
      [nh1,
       succNode TOOLS (failOracle predHalf) (rootNode TOOLS s0) set_origin
         (heuristic_rank s0 set_origin) ["New York"] ⟨some "New York", none, none, false⟩,
       succNode TOOLS (failOracle predHalf) (rootNode TOOLS s0) set_origin
         (heuristic_rank s0 set_origin) ["Boston"] ⟨some "Boston", none, none, false⟩] from rfl,
    bestNode_three _ _ _ h1 h2]

theorem loop_py_error (tools : List Tool) (o : OracleRun) (q : String) (fuel : Nat)
    (node : Node) (closed : List State) (e : SearchError) (hmem : node.state ∉ closed)
    (hgoal : node.state.is_goal = false)
    (hexp : expandPy tools o q node = Except.error e) :
    astarLoopPy tools o q (fuel + 1) [node] closed = some (Except.error e) := by
  show (if node.state ∈ closed then astarLoopPy tools o q fuel [] closed
        else if node.state.is_goal then some (Except.ok node.plan)
        else match expandPy tools o q node with
          | Except.error e' => some (Except.error e')
          | Except.ok none => astarLoopPy tools o q fuel [] (node.state :: closed)
          | Except.ok (some n) => astarLoopPy tools o q fuel ([] ++ [n]) (node.state :: closed)) =
      some (Except.error e)
  rw [if_neg hmem, if_neg (by simp [hgoal]), hexp]

theorem evalArgsPy_error (tools : List Tool) (o : OracleRun) (node : Node) (t : Tool)
    (prior : ℚ) (args : List String) (rest : List (List String)) (best : Option Node)
    (s' : State) (b : Bool) (e : SearchError)
    (hcall : Tool.callM t node.state args = (Except.ok b, s'))
    (hdiv : pyDiv (heuristic tools s') (o.predictVal node.state t args * prior) =
      Except.error e) :
    evalArgsPy tools o node t prior (args :: rest) best = Except.error e := by
  rw [evalArgsPy, hcall]
  show (match pyDiv (heuristic tools s') (o.predictVal node.state t args * prior) with
        | Except.error e' => Except.error e'
        | Except.ok h' => evalArgsPy tools o node t prior rest
            (bestStep best ⟨node.g + t.cost + h', node.g + t.cost, s',
              node.plan ++ [(t, args)]⟩)) = Except.error e
  rw [hdiv]

theorem evalArgsPy_one (tools : List Tool) (o : OracleRun) (node : Node) (t : Tool)
    (prior : ℚ) (args : List String) (s' : State) (b : Bool) (h' : ℚ)
    (hcall : Tool.callM t node.state args = (Except.ok b, s'))
    (hdiv : pyDiv (heuristic tools s') (o.predictVal node.state t args * prior) =
      Except.ok h') :
    evalArgsPy tools o node t prior [args] none =
      Except.ok (some ⟨node.g + t.cost + h', node.g + t.cost, s',
        node.plan ++ [(t, args)]⟩) := by
  rw [evalArgsPy, hcall]
  show (match pyDiv (heuristic tools s') (o.predictVal node.state t args * prior) with
        | Except.error e' => Except.error e'
        | Except.ok h'' => evalArgsPy tools o node t prior []
            (bestStep none ⟨node.g + t.cost + h'', node.g + t.cost, s',
              node.plan ++ [(t, args)]⟩)) = _
  rw [hdiv]
  rfl

theorem foldl_pyminFold_mem :
    ∀ (cs : List ℚ) (c : ℚ), cs.foldl pyminFold c ∈ c :: cs := by
  intro cs
  induction cs with
  | nil => intro c; simp
  | cons x xs ih =>
    intro c
    rw [List.foldl_cons]
    rcases List.mem_cons.mp (ih (pyminFold c x)) with h' | h'
    · rw [h', pyminFold]
      split
      · simp
      · simp
    · exact List.mem_cons_of_mem _ (List.mem_cons_of_mem _ h')

theorem foldl_pyminFold_le :
    ∀ (cs : List ℚ) (c x : ℚ), x ∈ c :: cs → cs.foldl pyminFold c ≤ x := by
  intro cs
  induction cs with
  | nil =>
    intro c x hx
    rw [List.mem_singleton] at hx
    subst hx
    exact le_refl _
  | cons y ys ih =>
    intro c x hx
    rw [List.foldl_cons]
    have hmin_c : pyminFold c y ≤ c := by
      rw [pyminFold]; split
      · exact le_of_lt (by assumption)
      · exact le_refl _
    have hmin_y : pyminFold c y ≤ y := by
      rw [pyminFold]; split
      · exact le_refl _
      · exact not_lt.mp (by assumption)
    rcases List.mem_cons.mp hx with h' | h'
    · subst h'
      exact le_trans (ih _ _ (List.mem_cons_self _ _)) hmin_c
    rcases List.mem_cons.mp h' with h'' | h''
    · subst h''
      exact le_trans (ih _ _ (List.mem_cons_self _ _)) hmin_y
    · exact ih (pyminFold c y) x (List.mem_cons_of_mem _ h'')

/-- C7: `Heuristic(state)` is `0` on a goal state, `0` when no tool is
applicable, and otherwise the minimum cost among the applicable tools (it is
a lower bound of their costs and is attained by one of them). -/
theorem c7_heuristic_spec (tools : List Tool) (s : State) :
    (s.is_goal = true → heuristic tools s = 0) ∧
    (s.is_goal = false → tools.filter (fun t => t.precondition s) = [] →
      heuristic tools s = 0) ∧
    (s.is_goal = false → ∀ t ∈ tools.filter (fun t => t.precondition s),
      heuristic tools s ≤ t.cost) ∧
    (s.is_goal = false → tools.filter (fun t => t.precondition s) ≠ [] →
      ∃ t ∈ tools.filter (fun t => t.precondition s), heuristic tools s = t.cost) := by
  refine ⟨?_, ?_, ?_, ?_⟩
  · intro hg
    have hb : s.booking_confirmed = true := hg
    rw [heuristic, if_pos hb]
  · intro hg hemp
    have hb : ¬ s.booking_confirmed = true := by
      intro h; rw [show s.is_goal = s.booking_confirmed from rfl, h] at hg; exact absurd hg (by simp)
    rw [heuristic, if_neg hb, hemp]
    rfl
  · intro hg t ht
    have hb : ¬ s.booking_confirmed = true := by
      intro h; rw [show s.is_goal = s.booking_confirmed from rfl, h] at hg; exact absurd hg (by simp)
    have hmem : t.cost ∈ (tools.filter (fun t => t.precondition s)).map (fun t => t.cost) :=
      List.mem_map.mpr ⟨t, ht, rfl⟩
    rw [heuristic, if_neg hb]
    rcases hl : (tools.filter (fun t => t.precondition s)).map (fun t => t.cost) with _ | ⟨c, cs⟩
    · rw [hl] at hmem; exact absurd hmem (by simp)
    · rw [hl] at hmem
      rw [hl]
      show cs.foldl pyminFold c ≤ t.cost
      exact foldl_pyminFold_le cs c t.cost hmem
  · intro hg hne
    have hb : ¬ s.booking_confirmed = true := by
      intro h; rw [show s.is_goal = s.booking_confirmed from rfl, h] at hg; exact absurd hg (by simp)
    rw [heuristic, if_neg hb]
    rcases hl : (tools.filter (fun t => t.precondition s)).map (fun t => t.cost) with _ | ⟨c, cs⟩
    · exact absurd (List.map_eq_nil_iff.mp hl) hne
    · have hmem : cs.foldl pyminFold c ∈
          (tools.filter (fun t => t.precondition s)).map (fun t => t.cost) := by
        rw [hl]; exact foldl_pyminFold_mem cs c
      obtain ⟨t, ht, hct⟩ := List.mem_map.mp hmem
      refine ⟨t, ht, ?_⟩
      rw [hl]
      show cs.foldl pyminFold c = t.cost
      exact hct.symm

/-- C7 witness: at the empty initial state the heuristic is bounded by the
cost of the applicable tool `set_origin` and is attained. -/
theorem c7_heuristic_spec_witness :
    heuristic TOOLS s0 ≤ set_origin.cost ∧
    ∃ t ∈ TOOLS.filter (fun t => t.precondition s0), heuristic TOOLS s0 = t.cost := by
  constructor
  · refine (c7_heuristic_spec TOOLS s0).2.2.1 rfl set_origin ?_
    rw [show TOOLS.filter (fun t => t.precondition s0) = [set_origin] from rfl]
    exact List.mem_singleton.mpr rfl
  · exact (c7_heuristic_spec TOOLS s0).2.2.2 rfl
      (by rw [show TOOLS.filter (fun t => t.precondition s0) = [set_origin] from rfl]; simp)

/-- C1: every plan returned by `Planner.astar` (`planner_viz.py`) replays
from the same initial state without any tool call erroring — in particular
every precondition holds at its step — and the final state satisfies
`is_goal()`. -/
theorem c1_plan_validity (tools : List Tool) (fuel : Nat) (o : OracleRun) (q : String)
    (init : State) (plan : Plan)
    (h : astarViz tools fuel o q init = some (Except.ok plan)) :
    ∃ s, simulate init plan = some s ∧ s.is_goal = true := by
  refine astarLoopViz_valid tools o q init fuel [rootNode tools init] [] plan ?_ h
  intro n hn
  rw [List.mem_singleton] at hn
  subst hn
  exact ⟨rfl, rfl⟩

/-- C1 witness: the concrete all-fallback run returns `planBook`, whose
replay reaches a confirmed state. -/
theorem c1_plan_validity_witness :
    ∃ s, simulate s0 planBook = some s ∧ s.is_goal = true :=
  c1_plan_validity TOOLS 5 (failOracle predBook) q4 s0 planBook astarViz_predBook

/-- C9: the root node satisfies the node invariant (state = replay of the
plan, `g` = accumulated cost), and one expansion of `Planner.astar`
(`planner_viz.py`) preserves it for every node it pushes. -/
theorem c9_node_invariant (tools : List Tool) (o : OracleRun) (q : String) (init : State) :
    NodeInv init (rootNode tools init) ∧
    ∀ n, NodeInv init n → ∀ m ∈ expandViz tools o q n, NodeInv init m :=
  ⟨⟨rfl, rfl⟩, fun n hn => expandViz_inv tools o q init n hn⟩

/-- C9 witness: the first node pushed by the concrete all-fallback run
satisfies the invariant. -/
theorem c9_node_invariant_witness : NodeInv s0 nh1 :=
  (c9_node_invariant TOOLS (failOracle predHalf) q4 s0).2 (rootNode TOOLS s0) ⟨rfl, rfl⟩
    nh1 (by rw [expandHalf_root]; exact List.mem_singleton.mpr rfl)

/-- C8 (amended): `Planner.astar` (`planner_viz.py`) accepts no deadline or
node-expansion budget; every terminating run either returns a plan or raises
the single failure `RuntimeError("No plan found")` — there is no distinct
timeout failure a caller could observe. -/
theorem c8_no_timeout (tools : List Tool) (fuel : Nat) (o : OracleRun) (q : String)
    (init : State) (r : Except SearchError Plan)
    (h : astarViz tools fuel o q init = some r) :
    (∃ p, r = Except.ok p) ∨ r = Except.error SearchError.noPlanFound :=
  astarLoopViz_result tools o q fuel _ _ r h

/-- C8 witness: a run that exhausts OPEN produces exactly `noPlanFound`. -/
theorem c8_no_timeout_witness :
    (∃ p, (Except.error SearchError.noPlanFound : Except SearchError Plan) = Except.ok p) ∨
      (Except.error SearchError.noPlanFound : Except SearchError Plan) =
        Except.error SearchError.noPlanFound :=
  c8_no_timeout TOOLS 2 badOracle q4 s0 _ rfl

/-- C8 counterexample: the code's search raises only
`RuntimeError("No plan found")` when OPEN is exhausted (here: the only
argument candidate makes the effect raise, so no node is ever pushed), and
the modelled error type — covering every exception the two `astar` variants
can raise — has no `PlanningTimedOut`-like constructor at all. -/
theorem c8_counterexample :
    astarViz TOOLS 2 badOracle q4 s0 = some (Except.error SearchError.noPlanFound) ∧
    ∀ e : SearchError, e = SearchError.noPlanFound ∨ e = SearchError.indexError ∨
      e = SearchError.zeroDivisionError :=
  ⟨rfl, fun e => by cases e <;> simp⟩

/-- C5 (amended, planner_viz.py side): each expansion pushes at most one
node, and a pushed node is one of the evaluated candidates and attains the
minimal `f'` among all of them. -/
theorem c5_single_push (tools : List Tool) (o : OracleRun) (q : String) (n : Node) :
    (expandViz tools o q n).length ≤ 1 ∧
    ∀ b ∈ expandViz tools o q n, b ∈ candidatesViz tools o q n ∧
      ∀ c ∈ candidatesViz tools o q n, b.f ≤ c.f := by
  rcases hb : bestNode (candidatesViz tools o q n) with _ | b
  · rw [expandViz, hb]
    exact ⟨by simp, by simp⟩
  · rw [expandViz, hb]
    refine ⟨by simp, ?_⟩
    intro b' hb'
    obtain rfl : b' = b := by simpa using hb'
    exact bestNode_eq_spec _ b' hb

/-- C5 witness: in the concrete all-fallback expansion of the root, the
pushed node is a candidate of minimal `f'`. -/
theorem c5_single_push_witness :
    nh1 ∈ candidatesViz TOOLS (failOracle predHalf) q4 (rootNode TOOLS s0) ∧
    ∀ c ∈ candidatesViz TOOLS (failOracle predHalf) q4 (rootNode TOOLS s0), nh1.f ≤ c.f :=
  (c5_single_push TOOLS (failOracle predHalf) q4 (rootNode TOOLS s0)).2 nh1
    (by rw [expandHalf_root]; exact List.mem_singleton.mpr rfl)

/-- C2 (amended, planner_viz.py side): the divisor is floored,
`combined_p = max(1e-9, prob * prior)`, hence positive for any `prob` and
`prior` (including 0), and the division it guards cannot raise — `f'` is a
well-defined finite rational. -/
theorem c2_division_safety_viz (prob prior h : ℚ) :
    0 < combinedViz prob prior ∧ eps ≤ combinedViz prob prior ∧
      pyDiv h (combinedViz prob prior) = Except.ok (h / combinedViz prob prior) := by
  have h1 : eps ≤ combinedViz prob prior := by
    rw [combinedViz, pymax]
    split
    · exact le_of_lt (by assumption)
    · exact le_refl _
  have h0 : 0 < combinedViz prob prior := lt_of_lt_of_le (by norm_num [eps]) h1
  exact ⟨h0, h1, by rw [pyDiv, if_neg (ne_of_gt h0)]⟩

/-- C2 counterexample: `planner.astar` (`planner.py`) has no epsilon floor —
with a parsed success estimate of 0 the very first expansion raises an
unhandled `ZeroDivisionError`. -/
theorem c2_counterexample :
    astarPy TOOLS 1 zeroOracle q4 s0 = some (Except.error SearchError.zeroDivisionError) := by
  have hdiv : pyDiv (heuristic TOOLS ⟨some "X", none, none, false⟩)
      (zeroOracle.predictVal (rootNode TOOLS s0).state set_origin ["X"] * clamp01 1) =
      Except.error SearchError.zeroDivisionError := by
    rw [show (zeroOracle.predictVal (rootNode TOOLS s0).state set_origin ["X"] : ℚ) = 0 from rfl,
      zero_mul, pyDiv, if_pos rfl]
  have hexp : expandPy TOOLS zeroOracle q4 (rootNode TOOLS s0) =
      Except.error SearchError.zeroDivisionError := by
    show evalArgsPy TOOLS zeroOracle (rootNode TOOLS s0) set_origin (clamp01 1) [["X"]] none =
      Except.error SearchError.zeroDivisionError
    exact evalArgsPy_error TOOLS zeroOracle (rootNode TOOLS s0) set_origin (clamp01 1)
      ["X"] [] none ⟨some "X", none, none, false⟩ true SearchError.zeroDivisionError rfl hdiv
  calc astarPy TOOLS 1 zeroOracle q4 s0
      = astarLoopPy TOOLS zeroOracle q4 1 [rootNode TOOLS s0] [] := rfl
    _ = some (Except.error SearchError.zeroDivisionError) :=
      loop_py_error _ _ _ 0 _ _ _ (by simp) rfl hexp

/-- C3 counterexample: with every Oracle call failing, `planner.propose_tools`
(`planner.py`, which has no fallback ranking) returns an empty list, and
`planner.astar` raises an unhandled `IndexError` at `tool_candidates[0]`. -/
theorem c3_counterexample :
    astarPy TOOLS 1 (failOracle predHalf) q4 s0 =
      some (Except.error SearchError.indexError) := by
  calc astarPy TOOLS 1 (failOracle predHalf) q4 s0
      = astarLoopPy TOOLS (failOracle predHalf) q4 1 [rootNode TOOLS s0] [] := rfl
    _ = some (Except.error SearchError.indexError) :=
      loop_py_error _ _ _ 0 _ _ _ (by simp) rfl rfl

/-- C3 (amended, planner_viz.py side): when the ranking (with fallback) is
empty, the popped node is discarded — the loop continues on the remaining
OPEN with the node's state closed, and no error is raised. -/
theorem c3_empty_ranking_discards (tools : List Tool) (o : OracleRun) (q : String)
    (fuel : Nat) (node : Node) (closed : List State) (hmem : node.state ∉ closed)
    (hgoal : node.state.is_goal = false)
    (hrank : propose_toolsViz tools o node.state 3 = []) :
    astarLoopViz tools o q (fuel + 1) [node] closed =
      astarLoopViz tools o q fuel [] (node.state :: closed) := by
  have he : expandViz tools o q node = [] := by
    rw [expandViz, candidatesViz, hrank]
    rfl
  rw [loop_step tools o q fuel node closed hmem hgoal, he]

/-- C3 witness: with an empty tool registry the ranking is empty and the
node is discarded without an error (the loop just continues). -/
theorem c3_empty_ranking_discards_witness :
    astarLoopViz [] (failOracle predHalf) q4 1 [rootNode [] s0] [] =
      astarLoopViz [] (failOracle predHalf) q4 0 [] [s0] :=
  c3_empty_ranking_discards [] (failOracle predHalf) q4 0 (rootNode [] s0) []
    (by simp) rfl rfl

/-- C6 (amended): `predict_success` returns the first random draw when the
call fails, the second when the reply does not parse as a float — both in
[0.4, 0.9] when the draws are — and returns a parsed reply UNCLAMPED. -/
theorem c6_predict_success_spec (reply : Option (Option ℚ)) (r1 r2 : ℚ)
    (h1a : 2/5 ≤ r1) (h1b : r1 ≤ 9/10) (h2a : 2/5 ≤ r2) (h2b : r2 ≤ 9/10) :
    (reply = none → predict_success reply r1 r2 = r1 ∧
      2/5 ≤ predict_success reply r1 r2 ∧ predict_success reply r1 r2 ≤ 9/10) ∧
    (reply = some none → predict_success reply r1 r2 = r2 ∧
      2/5 ≤ predict_success reply r1 r2 ∧ predict_success reply r1 r2 ≤ 9/10) ∧
    (∀ x, reply = some (some x) → predict_success reply r1 r2 = x) := by
  refine ⟨?_, ?_, ?_⟩
  · intro h; subst h; exact ⟨rfl, h1a, h1b⟩
  · intro h; subst h; exact ⟨rfl, h2a, h2b⟩
  · intro x h; subst h; rfl

/-- C6 witness: a failed call with draw 0.5 returns 0.5, inside [0.4, 0.9]. -/
theorem c6_predict_success_spec_witness :
    predict_success none (1/2) (1/2) = 1/2 ∧
      2/5 ≤ predict_success none (1/2) (1/2) ∧ predict_success none (1/2) (1/2) ≤ 9/10 :=
  (c6_predict_success_spec none (1/2) (1/2) (by norm_num) (by norm_num) (by norm_num)
    (by norm_num)).1 rfl

/-- C6 counterexample: a reply that parses as the float 2.0 is returned
unclamped — `predict_success` yields 2, outside [0, 1]. -/
theorem c6_counterexample :
    predict_success (some (some 2)) (1/2) (1/2) = 2 ∧
      ¬ (predict_success (some (some 2)) (1/2) (1/2) ≤ 1) := by
  refine ⟨rfl, ?_⟩
  rw [show predict_success (some (some 2)) (1/2) (1/2) = 2 from rfl]
  norm_num

/-- C10 (amended): `Tool.__call__` checks the precondition first; when it is
false it raises `ValueError` and the state is unchanged; when it is true it
runs the effect — returning `True` with the updated state when the effect
succeeds, and propagating the effect's own exception (state unchanged)
when the effect raises, e.g. on an empty argument tuple. -/
theorem c10_tool_call_spec (t : Tool) (s : State) (args : List String) :
    (t.precondition s = false →
      Tool.callM t s args =
        (Except.error (PyError.valueError ("Precondition failed for " ++ t.name)), s)) ∧
    (t.precondition s = true → ∀ s', t.effect s args = some s' →
      Tool.callM t s args = (Except.ok true, s')) ∧
    (t.precondition s = true → t.effect s args = none →
      Tool.callM t s args = (Except.error PyError.indexError, s)) := by
  refine ⟨?_, ?_, ?_⟩
  · intro hp
    rw [Tool.callM, if_neg (by simp [hp])]
  · intro hp s' he
    rw [Tool.callM, if_pos hp, he]
  · intro hp he
    rw [Tool.callM, if_pos hp, he]

/-- C10 witness: `set_origin` on the empty state with one argument succeeds,
returns `True` and sets the origin. -/
theorem c10_tool_call_spec_witness :
    Tool.callM set_origin s0 ["X"] =
      (Except.ok true, ⟨some "X", none, none, false⟩) :=
  (c10_tool_call_spec set_origin s0 ["X"]).2.1 rfl _ rfl

/-- C10 counterexample: with the precondition true but an empty argument
tuple, `set_origin`'s effect raises `IndexError`, so the call does not
return `True`. -/
theorem c10_counterexample :
    set_origin.precondition s0 = true ∧
    (Tool.callM set_origin s0 []).1 = Except.error PyError.indexError ∧
    (Tool.callM set_origin s0 []).1 ≠ Except.ok true :=
  ⟨rfl, rfl, by
    rw [show (Tool.callM set_origin s0 []).1 = Except.error PyError.indexError from rfl]
    simp⟩

/-- C4 counterexample: with every Oracle call failing and random success
draws inside the fallback range [0.4, 0.9] (0.7 for the argument "Book",
0.5 otherwise), the search returns `planBook`, which sets origin "Book" —
the first capitalized phrase extracted from the goal text — not "New York",
and sets destination "New York", not "Boston". -/
theorem c4_counterexample :
    astarViz TOOLS 5 (failOracle predBook) q4 s0 = some (Except.ok planBook) ∧
    planBook.map (fun st => (st.1.name, st.2)) =
      [("set_origin", ["Book"]), ("set_destination", ["New York"]),
       ("select_transport", ["train"]), ("confirm_booking", [])] ∧
    (2:ℚ)/5 ≤ 7/10 ∧ (7:ℚ)/10 ≤ 9/10 ∧
    ("Book" : String) ≠ "New York" ∧ ("New York" : String) ≠ "Boston" :=
  ⟨astarViz_predBook, rfl, by norm_num, by norm_num, by decide, by decide⟩

theorem e_clamp_tenth : clamp01 (1/10) = 1/10 := by
  rw [clamp01, pymin2, if_pos (by norm_num : (1:ℚ)/10 < 1), pymax,
    if_pos (by norm_num : (0:ℚ) < 1/10)]

theorem e_clamp_nine : clamp01 (9/10) = 9/10 := by
  rw [clamp01, pymin2, if_pos (by norm_num : (9:ℚ)/10 < 1), pymax,
    if_pos (by norm_num : (0:ℚ) < 9/10)]

/-- The node `planner.astar` (`planner.py`) pushes under `dupOracle`: built
from the first ranked entry only (prior 0.1), with f' = 0 + 1 + 20 = 21. -/
def nPyChosen : Node :=
  ⟨(0:ℚ) + 1 + 20, (0:ℚ) + 1, ⟨some "X", none, none, false⟩, [(set_origin, ["X"])]⟩

/-- The first-entry candidate as the all-ranked-tools evaluation computes it. -/
def nAlt10 : Node :=
  ⟨(0:ℚ) + 1 + heuristic TOOLS ⟨some "X", none, none, false⟩ / ((1:ℚ)/2 * clamp01 (1/10)),
   (0:ℚ) + 1, ⟨some "X", none, none, false⟩, [(set_origin, ["X"])]⟩

/-- The second-entry candidate (prior 0.9): f' = 1 + 20/9 = 29/9 < 21. -/
def nPyAlt : Node :=
  ⟨(0:ℚ) + 1 + heuristic TOOLS ⟨some "X", none, none, false⟩ / ((1:ℚ)/2 * clamp01 (9/10)),
   (0:ℚ) + 1, ⟨some "X", none, none, false⟩, [(set_origin, ["X"])]⟩

/-- C5 counterexample: under `dupOracle`, whose ranking names `set_origin`
twice (priors 0.1 then 0.9), the expansion of `planner.astar` (`planner.py`)
pushes the node computed from the FIRST ranked entry only (f' = 21), while
the evaluation of ALL ranked entries contains a successor with
f' = 29/9 < 21 — so the pushed node is not the globally best candidate. -/
theorem c5_counterexample :
    expandPy TOOLS dupOracle q4 (rootNode TOOLS s0) = Except.ok (some nPyChosen) ∧
    nPyAlt ∈ allRankedCandidatesPy TOOLS dupOracle q4 (rootNode TOOLS s0) ∧
    nPyAlt.f < nPyChosen.f := by
  refine ⟨?_, ?_, ?_⟩
  · have hdiv : pyDiv (heuristic TOOLS ⟨some "X", none, none, false⟩)
        (dupOracle.predictVal (rootNode TOOLS s0).state set_origin ["X"] * clamp01 (1/10)) =
        Except.ok 20 := by
      rw [show (dupOracle.predictVal (rootNode TOOLS s0).state set_origin ["X"] : ℚ) = 1/2
          from rfl,
        e_clamp_tenth,
        show heuristic TOOLS (⟨some "X", none, none, false⟩ : State) = 1 from rfl,
        pyDiv, if_neg (by norm_num : ¬ ((1:ℚ)/2 * (1/10) = 0)),
        show (1:ℚ) / (1/2 * (1/10)) = 20 by norm_num]
    show evalArgsPy TOOLS dupOracle (rootNode TOOLS s0) set_origin (clamp01 (1/10))
      [["X"]] none = Except.ok (some nPyChosen)
    exact evalArgsPy_one TOOLS dupOracle (rootNode TOOLS s0) set_origin (clamp01 (1/10))
      ["X"] ⟨some "X", none, none, false⟩ true 20 rfl hdiv
  · rw [show allRankedCandidatesPy TOOLS dupOracle q4 (rootNode TOOLS s0) = [nAlt10, nPyAlt]
      from rfl]
    exact List.mem_cons_of_mem _ (List.mem_singleton.mpr rfl)
  · show (0:ℚ) + 1 + heuristic TOOLS ⟨some "X", none, none, false⟩ / ((1:ℚ)/2 * clamp01 (9/10)) <
      (0:ℚ) + 1 + 20
    rw [e_clamp_nine, show heuristic TOOLS (⟨some "X", none, none, false⟩ : State) = 1 from rfl]
    norm_num

end PlanningAgent
